import Mathlib

/-!
Verification of the putio-sync `Store` persistence layer (store.go, config.go).

The Go source is shallowly embedded as follows.

* The embedded bolt database is modelled as the two-level bucket hierarchy the
  program actually uses: a `DB` maps top-level bucket names to `TopBucket`s,
  each of which maps keys either to raw values or to one further level of
  `SubBucket` (bolt's root can hold only buckets, and the program never nests
  deeper).  Byte strings are `List Nat`.  Bolt iterates and stores keys in
  lexicographic byte order, so every insertion goes through `putSorted`, which
  keeps the association lists sorted by `byteLt`; cursor iteration is then
  plain list traversal.
* `tx.Bucket(name)` returns Go `nil` when the bucket is absent, and every
  method call on that nil `*bolt.Bucket` dereferences it, which is a Go
  runtime panic (bolt's `Update`/`View` roll the transaction back on panic but
  do not recover it).  A computation that ends in such a nil dereference is
  modelled by the outcome `Res.crash`, kept distinct from an ordinary
  returned error `Res.err`.
* The gob wire format of the two record types is external library behaviour;
  it is modelled by concrete injective encoders (`encodeState`,
  `encodeConfig`) with partial decoders, preserving the properties the store
  relies on: encoding always succeeds, decoding inverts encoding, and
  decoding arbitrary bytes can fail.
* `os/user.Current()` and the host home directory are modelled by `Env`;
  `bolt.Open`, the provisioning transaction and `Close` inside `Store.Open`
  are modelled by their outcomes in `OpenEnv`.
-/

/-! ## Bytes, lexicographic order, big-endian encoding -/

/-- A byte string (bolt keys and values); `bytes.Compare` order is `byteLt`. -/
abbrev Bytes := List Nat

/-- Lexicographic order on byte strings, as `bytes.Compare` orders bolt keys:
a strict prefix is smaller, otherwise the first differing byte decides. -/
def byteLt : Bytes → Bytes → Bool
  | [], [] => false
  | [], _ :: _ => true
  | _ :: _, [] => false
  | a :: as, b :: bs => if a < b then true else if a = b then byteLt as bs else false

/-- Big-endian fixed-width base-256 digits of `u`, `w` bytes wide
(`binary.BigEndian.PutUint64` is `natToBE 8`). -/
def natToBE : Nat → Nat → Bytes
  | 0, _ => []
  | w + 1, u => (u / 256 ^ w) % 256 :: natToBE w (u % 256 ^ w)

/-- Go `itob`: `binary.BigEndian.PutUint64(b, uint64(v))` — the int64 is
reinterpreted as a uint64 (two's complement, i.e. reduction mod 2^64) and
written as 8 big-endian bytes. -/
def itob (v : Int) : Bytes :=
  natToBE 8 ((v % (2 ^ 64 : Int)).toNat)

/-- Byte view of a Go string (the program only ever forms `[]byte(s)`). -/
def strBytes (s : String) : Bytes := s.data.map Char.toNat

/-! ## Sorted association lists: the contents of one bucket level -/

/-- Lookup of a key in one bucket level (bolt `Get` / `Bucket` key search). -/
def lookupKey {α : Type} : List (Bytes × α) → Bytes → Option α
  | [], _ => none
  | (k', v') :: rest, k => if k = k' then some v' else lookupKey rest k

/-- Insert-or-replace keeping the list sorted by `byteLt`: bolt stores keys
in lexicographic order, and `Put`/`CreateBucket` insert at the sorted
position (replacing an existing binding of the same key). -/
def putSorted {α : Type} : List (Bytes × α) → Bytes → α → List (Bytes × α)
  | [], k, v => [(k, v)]
  | (k', v') :: rest, k, v =>
    if byteLt k k' then (k, v) :: (k', v') :: rest
    else if k = k' then (k, v) :: rest
    else (k', v') :: putSorted rest k v

/-! ## Errors and transaction outcomes -/

/-- Error values surfaced by the store: the three `Error` constants of the
source plus the relevant bolt errors (`ErrBucketNameRequired`,
`ErrIncompatibleValue`, open failure) and the modelled gob decode and
home-directory resolution failures. -/
inductive Err where
  | stateNotFound
  | configNotFound
  | saveStateFailed
  | bucketNameRequired
  | incompatibleValue
  | gobDecode
  | envResolution
  | storageUnavailable
deriving DecidableEq

/-- Outcome of a store call: a returned value, a returned error, or a Go
runtime panic (`crash`, e.g. the nil-`*bolt.Bucket` dereference that occurs
when a method is invoked on an absent bucket). -/
inductive Res (α : Type) where
  | ok (a : α)
  | err (e : Err)
  | crash
deriving DecidableEq

/-- Sequencing of store calls made one after the other by a caller: a later
call happens only if the earlier one returned normally. -/
def Res.bind {α β : Type} : Res α → (α → Res β) → Res β
  | .ok a, f => f a
  | .err e, _ => .err e
  | .crash, _ => .crash

/-- Extract the value of a successful outcome, with a default. -/
def Res.getD {α : Type} : Res α → α → α
  | .ok a, _ => a
  | _, d => d

/-! ## The database -/

/-- A second-level bucket: it holds only ordinary key/value pairs (the
program never creates buckets inside `download-items` or
`watched-torrents`).  `kvs` is sorted by `byteLt` on the keys. -/
structure SubBucket where
  kvs : List (Bytes × Bytes)
deriving DecidableEq

/-- An entry of a top-level bucket: either a plain value or a nested
(second-level) bucket. -/
inductive UEntry where
  | val (v : Bytes)
  | sub (b : SubBucket)
deriving DecidableEq

/-- A top-level bucket (a user's bucket, or `defaults`): keys map to values
or to second-level buckets; `entries` is sorted by `byteLt` on the keys. -/
structure TopBucket where
  entries : List (Bytes × UEntry)
deriving DecidableEq

/-- The database: bolt's root holds only buckets. -/
structure DB where
  top : List (Bytes × TopBucket)
deriving DecidableEq

/-- Bolt `Bucket.Bucket(k)` on a (non-nil) top-level bucket: returns the
nested bucket, or `none` when the key is absent or holds a plain value. -/
def TopBucket.bucketOf (b : TopBucket) (k : Bytes) : Option SubBucket :=
  match lookupKey b.entries k with
  | some (UEntry.sub s) => some s
  | _ => none

/-- Bolt `Bucket.Get(k)` on a (non-nil) top-level bucket: returns the value,
or `none` (Go `nil`) when the key is absent or holds a nested bucket. -/
def TopBucket.getVal (b : TopBucket) (k : Bytes) : Option Bytes :=
  match lookupKey b.entries k with
  | some (UEntry.val v) => some v
  | _ => none

/-- Bucket name `download-items` (source: `downloadItemsBucket`). -/
def downloadItemsBucket : Bytes := strBytes "download-items"

/-- Bucket name `watched-torrents` (source: `watchedTorrentsBucket`). -/
def watchedTorrentsBucket : Bytes := strBytes "watched-torrents"

/-- Bucket name `defaults` (source: `defaultsBucket`). -/
def defaultsBucket : Bytes := strBytes "defaults"

/-- Key `config` under a user's bucket. -/
def configKey : Bytes := strBytes "config"

/-! ## Records and their serialized form -/

/-- Modelled from the spec: the DownloadState record (its Go declaration is
not under src/).  Essential attributes per §3 of the spec and the uses in
store.go: the int64 `FileID` that doubles as the record key, the `IsHidden`
listing filter, and further transfer-progress fields that are opaque to the
store, modelled as an uninterpreted byte payload. -/
structure State where
  FileID : Int
  IsHidden : Bool
  payload : Bytes
deriving DecidableEq

/-- The Config record of config.go, field for field (`Duration` is an int64
nanosecond count, Go `uint` fields become `Nat`, `string` stays `String`). -/
structure Config where
  PollInterval : Int
  DownloadTo : String
  DownloadFrom : Int
  SegmentsPerFile : Nat
  MaxParallelFiles : Nat
  OAuth2Token : String
  WatchTorrentsFolder : Bool
  TorrentsFolder : String
  IsPaused : Bool
  DeleteRemoteFile : Bool
deriving DecidableEq

/-- Gob encoding of a `State`, modelled as a concrete injective encoding:
sign byte and magnitude of the file id, the hidden flag, then the opaque
payload.  Gob encoding of a well-formed in-memory record always succeeds,
which the total function reflects. -/
def encodeState (s : State) : Bytes :=
  (if s.FileID < 0 then 1 else 0) :: s.FileID.natAbs ::
    (if s.IsHidden then 1 else 0) :: s.payload

/-- Gob decoding of a `State`: partial inverse of `encodeState`; malformed
bytes (wrong shape or invalid flag bytes) fail to decode, as gob decoding of
corrupt data fails. -/
def decodeState : Bytes → Option State
  | sg :: mag :: h :: rest =>
    if sg ≤ 1 ∧ h ≤ 1 then
      some ⟨if sg = 1 then -(mag : Int) else (mag : Int), h == 1, rest⟩
    else none
  | _ => none

/-- Sign/magnitude encoding of a Go signed integer field. -/
def encInt (i : Int) : Bytes := [if i < 0 then 1 else 0, i.natAbs]

/-- Encoding of a Go bool field. -/
def encBool (b : Bool) : Bytes := [if b then 1 else 0]

/-- Length-prefixed encoding of a Go string field. -/
def encStr (s : String) : Bytes := (strBytes s).length :: strBytes s

/-- Read back a signed integer field. -/
def readInt : Bytes → Option (Int × Bytes)
  | sg :: mag :: rest =>
    if sg ≤ 1 then some (if sg = 1 then -(mag : Int) else (mag : Int), rest) else none
  | _ => none

/-- Read back an unsigned integer field. -/
def readNat : Bytes → Option (Nat × Bytes)
  | n :: rest => some (n, rest)
  | _ => none

/-- Read back a bool field. -/
def readBool : Bytes → Option (Bool × Bytes)
  | b :: rest => if b ≤ 1 then some (b == 1, rest) else none
  | _ => none

/-- Rebuild a string from its byte view. -/
def natsToStr (l : Bytes) : String := ⟨l.map Char.ofNat⟩

/-- Read back a length-prefixed string field. -/
def readStr : Bytes → Option (String × Bytes)
  | n :: rest =>
    if n ≤ rest.length then some (natsToStr (rest.take n), rest.drop n) else none
  | _ => none

/-- Gob encoding of a `Config`, modelled as the concatenation of the field
encodings in struct order (gob emits fields in declaration order). -/
def encodeConfig (c : Config) : Bytes :=
  encInt c.PollInterval ++ (encStr c.DownloadTo ++ (encInt c.DownloadFrom ++
    (c.SegmentsPerFile :: c.MaxParallelFiles :: (encStr c.OAuth2Token ++
      (encBool c.WatchTorrentsFolder ++ (encStr c.TorrentsFolder ++
        (encBool c.IsPaused ++ encBool c.DeleteRemoteFile)))))))

/-- Gob decoding of a `Config`: partial inverse of `encodeConfig`. -/
def decodeConfig (b : Bytes) : Option Config := do
  let (pollInterval, b) ← readInt b
  let (downloadTo, b) ← readStr b
  let (downloadFrom, b) ← readInt b
  let (segmentsPerFile, b) ← readNat b
  let (maxParallelFiles, b) ← readNat b
  let (oauth2Token, b) ← readStr b
  let (watchTorrents, b) ← readBool b
  let (torrentsFolder, b) ← readStr b
  let (isPaused, b) ← readBool b
  let (deleteRemote, b) ← readBool b
  if b.isEmpty then
    pure ⟨pollInterval, downloadTo, downloadFrom, segmentsPerFile, maxParallelFiles,
          oauth2Token, watchTorrents, torrentsFolder, isPaused, deleteRemote⟩
  else none

/-! ## Environment-dependent pieces -/

/-- The host environment seen by `DefaultConfig`: `os/user.Current()` either
resolves a home directory or fails. -/
structure Env where
  homeDir : Option String
deriving DecidableEq

/-- Model of `filepath.Join` for the clean path components used here. -/
def pathJoin (a b : String) : String := a ++ "/" ++ b

/-- Go `defaultPollInterval = 2 * time.Minute` in nanoseconds. -/
def defaultPollInterval : Int := 120000000000

/-- Go `defaultDownloadFrom = -1`. -/
def defaultDownloadFrom : Int := -1

/-- Go `defaultSegmentsPerFile = 3`. -/
def defaultSegmentsPerFile : Nat := 3

/-- Go `defaultMaxParallelFiles = 2`. -/
def defaultMaxParallelFiles : Nat := 2

/-- `Store.DefaultConfig`: resolves the OS account's home directory (an
error if it cannot be resolved) and fills in the built-in defaults; the
fields absent from the Go struct literal (`OAuth2Token`,
`DeleteRemoteFile`) are zero-valued. -/
def Store.DefaultConfig (env : Env) : Res Config :=
  match env.homeDir with
  | none => Res.err Err.envResolution
  | some h =>
    Res.ok
      { PollInterval := defaultPollInterval
        DownloadTo := pathJoin h "putio-sync"
        DownloadFrom := defaultDownloadFrom
        SegmentsPerFile := defaultSegmentsPerFile
        MaxParallelFiles := defaultMaxParallelFiles
        OAuth2Token := ""
        WatchTorrentsFolder := false
        TorrentsFolder := ""
        IsPaused := true
        DeleteRemoteFile := false }

/-! ## Store operations -/

/-- Inner step of `Store.CreateBuckets`: `CreateBucketIfNotExists(k)` inside
a user's bucket — keep an existing child bucket untouched, fail with
`ErrIncompatibleValue` if the key holds a plain value, otherwise add an
empty child bucket. -/
def ensureSub (b : TopBucket) (k : Bytes) : Res TopBucket :=
  match lookupKey b.entries k with
  | some (UEntry.sub _) => Res.ok b
  | some (UEntry.val _) => Res.err Err.incompatibleValue
  | none => Res.ok ⟨putSorted b.entries k (UEntry.sub ⟨[]⟩)⟩

/-- `Store.CreateBuckets`: create-if-absent the user's top-level bucket
(bolt rejects the empty bucket name with `ErrBucketNameRequired`), then
create-if-absent its `download-items` and `watched-torrents` children; the
whole update commits atomically on success and leaves the database
untouched on error. -/
def Store.CreateBuckets (forUser : String) (db : DB) : Res DB :=
  if strBytes forUser = [] then Res.err Err.bucketNameRequired
  else
    match ensureSub ((lookupKey db.top (strBytes forUser)).getD ⟨[]⟩) downloadItemsBucket with
    | Res.err e => Res.err e
    | Res.crash => Res.crash
    | Res.ok b1 =>
      match ensureSub b1 watchedTorrentsBucket with
      | Res.err e => Res.err e
      | Res.crash => Res.crash
      | Res.ok b2 => Res.ok ⟨putSorted db.top (strBytes forUser) b2⟩

/-- `Store.SaveState`: `tx.Bucket(forUser)` yields nil for an unprovisioned
user and the immediate `userBkt.Bucket(downloadItemsBucket)` call then
dereferences nil — a runtime panic (`crash`).  With the buckets present,
the record is gob-encoded and upserted under `itob(state.FileID)`; a nil
`download-items` bucket likewise crashes at the `Put` call. -/
def Store.SaveState (state : State) (forUser : String) (db : DB) : Res DB :=
  match lookupKey db.top (strBytes forUser) with
  | none => Res.crash
  | some userBkt =>
    match userBkt.bucketOf downloadItemsBucket with
    | none => Res.crash
    | some downloadsBkt =>
      Res.ok ⟨putSorted db.top (strBytes forUser)
                ⟨putSorted userBkt.entries downloadItemsBucket
                   (UEntry.sub ⟨putSorted downloadsBkt.kvs (itob state.FileID)
                                  (encodeState state)⟩)⟩⟩

/-- `Store.State` (spec name `GetState`): look up the record under
`itob(id)` in the user's `download-items` bucket; absent key yields
`ErrStateNotFound`, a present value is gob-decoded.  Either bucket being
nil crashes at the subsequent method call. -/
def Store.GetState (id : Int) (forUser : String) (db : DB) : Res State :=
  match lookupKey db.top (strBytes forUser) with
  | none => Res.crash
  | some userBkt =>
    match userBkt.bucketOf downloadItemsBucket with
    | none => Res.crash
    | some downloadsBkt =>
      match lookupKey downloadsBkt.kvs (itob id) with
      | none => Res.err Err.stateNotFound
      | some v =>
        match decodeState v with
        | none => Res.err Err.gobDecode
        | some st => Res.ok st

/-- Cursor loop of `Store.States`: iterate the records in key order,
gob-decode each one (a failure aborts the whole listing), and keep the
records whose `IsHidden` flag is unset. -/
def statesLoop : List (Bytes × Bytes) → Res (List State)
  | [] => Res.ok []
  | (_, v) :: rest =>
    match decodeState v with
    | none => Res.err Err.gobDecode
    | some st =>
      match statesLoop rest with
      | Res.ok l => Res.ok (if st.IsHidden then l else st :: l)
      | r => r

/-- `Store.States` (spec name `ListStates`): the empty user short-circuits
to an empty listing before touching the database; otherwise iterate the
user's `download-items` bucket, with nil buckets crashing at the first
method call on them. -/
def Store.ListStates (forUser : String) (db : DB) : Res (List State) :=
  if forUser = "" then Res.ok []
  else
    match lookupKey db.top (strBytes forUser) with
    | none => Res.crash
    | some userBkt =>
      match userBkt.bucketOf downloadItemsBucket with
      | none => Res.crash
      | some downloadsBkt => statesLoop downloadsBkt.kvs

/-- `Store.Config` (spec name `GetConfig`): the empty user returns the
default configuration directly; otherwise the `config` value of the user's
bucket is fetched (`userBkt.Get` on a nil bucket crashes), a missing value
raises the internal `ErrConfigNotFound` which is swallowed into the default
configuration, and a present value is gob-decoded. -/
def Store.GetConfig (forUser : String) (db : DB) (env : Env) : Res Config :=
  if forUser = "" then Store.DefaultConfig env
  else
    match lookupKey db.top (strBytes forUser) with
    | none => Res.crash
    | some userBkt =>
      match userBkt.getVal configKey with
      | none => Store.DefaultConfig env
      | some v =>
        match decodeConfig v with
        | none => Res.err Err.gobDecode
        | some cfg => Res.ok cfg

/-- `Store.SaveConfig`: gob-encode and upsert under the `config` key of the
user's bucket; an unprovisioned user crashes at `userBkt.Put`, and a
`config` key already holding a nested bucket is bolt's
`ErrIncompatibleValue`. -/
def Store.SaveConfig (cfg : Config) (forUser : String) (db : DB) : Res DB :=
  match lookupKey db.top (strBytes forUser) with
  | none => Res.crash
  | some userBkt =>
    match lookupKey userBkt.entries configKey with
    | some (UEntry.sub _) => Res.err Err.incompatibleValue
    | _ =>
      Res.ok ⟨putSorted db.top (strBytes forUser)
                ⟨putSorted userBkt.entries configKey (UEntry.val (encodeConfig cfg))⟩⟩

/-- Outcomes of the three externally-determined steps inside `Store.Open`:
whether `bolt.Open` succeeds, whether the provisioning transaction that
creates the `defaults` bucket fails, and what `Close` returns. -/
structure OpenEnv where
  openOK : Bool
  provisionErr : Option Err
  closeErr : Option Err
deriving DecidableEq

/-- What `Store.Open` leaves behind: the error it returns (`none` meaning
success) and whether the database handle is still open afterwards. -/
structure OpenResult where
  retErr : Option Err
  handleOpen : Bool
deriving DecidableEq

/-- `Store.Open`: `bolt.Open` failure is returned as-is; on success the
provisioning transaction runs, and if it fails the source executes
`return s.db.Close()` — the handle is closed but the value returned to the
caller is Close's result, not the provisioning error. -/
def Store.Open (e : OpenEnv) : OpenResult :=
  if e.openOK = false then ⟨some Err.storageUnavailable, false⟩
  else
    match e.provisionErr with
    | none => ⟨none, true⟩
    | some _ => ⟨e.closeErr, false⟩

/-! ## Lemmas about sorted association lists -/

theorem byteLt_irrefl (k : Bytes) : byteLt k k = false := by
  induction k with
  | nil => rfl
  | cons a as ih => simp [byteLt, ih]

theorem lookupKey_putSorted_self {α : Type} (l : List (Bytes × α)) (k : Bytes) (v : α) :
    lookupKey (putSorted l k v) k = some v := by
  induction l with
  | nil => simp [putSorted, lookupKey]
  | cons p rest ih =>
    obtain ⟨k', v'⟩ := p
    by_cases hlt : byteLt k k' = true
    · simp [putSorted, hlt, lookupKey]
    · by_cases heq : k = k'
      · subst heq
        simp [putSorted, byteLt_irrefl, lookupKey]
      · simp [putSorted, hlt, heq, lookupKey, ih]

theorem lookupKey_putSorted_ne {α : Type} (l : List (Bytes × α)) (k k' : Bytes) (v' : α)
    (h : k ≠ k') : lookupKey (putSorted l k' v') k = lookupKey l k := by
  induction l with
  | nil => simp [putSorted, lookupKey, h]
  | cons p rest ih =>
    obtain ⟨k₀, v₀⟩ := p
    by_cases hlt : byteLt k' k₀ = true
    · simp [putSorted, hlt, lookupKey, h]
    · by_cases heq : k' = k₀
      · subst heq
        simp [putSorted, hlt, lookupKey, h]
      · simp only [putSorted, hlt, heq, if_false, if_neg]
        by_cases hk : k = k₀
        · simp [lookupKey, hk]
        · simp [lookupKey, hk, ih]

theorem putSorted_idem {α : Type} (l : List (Bytes × α)) (k : Bytes) (v : α) :
    putSorted (putSorted l k v) k v = putSorted l k v := by
  induction l with
  | nil => simp [putSorted, byteLt_irrefl]
  | cons p rest ih =>
    obtain ⟨k', v'⟩ := p
    by_cases hlt : byteLt k k' = true
    · simp [putSorted, hlt, byteLt_irrefl]
    · by_cases heq : k = k'
      · simp [putSorted, hlt, heq, byteLt_irrefl]
      · simp [putSorted, hlt, heq, ih]

/-! ## Round-trip lemmas for the modelled gob encodings -/

theorem decodeState_encodeState (s : State) : decodeState (encodeState s) = some s := by
  obtain ⟨f, h, p⟩ := s
  by_cases hf : f < 0
  · cases h <;> simp [encodeState, decodeState, hf, Int.ofNat_natAbs_of_nonpos hf.le]
  · cases h <;> simp [encodeState, decodeState, hf, Int.natAbs_of_nonneg (not_lt.mp hf)]

theorem readInt_encInt (i : Int) (r : Bytes) : readInt (encInt i ++ r) = some (i, r) := by
  by_cases hi : i < 0
  · simp [encInt, readInt, hi, Int.ofNat_natAbs_of_nonpos hi.le]
  · simp [encInt, readInt, hi, Int.natAbs_of_nonneg (not_lt.mp hi)]

theorem readBool_encBool (b : Bool) (r : Bytes) : readBool (encBool b ++ r) = some (b, r) := by
  cases b <;> simp [encBool, readBool]

theorem natsToStr_strBytes (s : String) : natsToStr (strBytes s) = s := by
  obtain ⟨data⟩ := s
  simp only [natsToStr, strBytes, List.map_map]
  congr 1
  induction data with
  | nil => rfl
  | cons c cs ih => simp [ih, Char.ofNat_toNat]

theorem readStr_encStr (s : String) (r : Bytes) : readStr (encStr s ++ r) = some (s, r) := by
  simp [encStr, readStr, List.take_left, List.drop_left, natsToStr_strBytes]

theorem readBool_encBool_nil (b : Bool) : readBool (encBool b) = some (b, []) := by
  cases b <;> rfl

theorem optBindSome {α β : Type} (a : α) (f : α → Option β) :
    Option.bind (some a) f = f a := rfl

theorem decodeConfig_encodeConfig (c : Config) : decodeConfig (encodeConfig c) = some c := by
  obtain ⟨pi, dt, df, spf, mpf, tok, wt, tf, ip, dr⟩ := c
  simp only [encodeConfig, decodeConfig, bind, Option.bind_eq_bind, List.append_assoc]
  rw [readInt_encInt]; simp only [optBindSome]
  rw [readStr_encStr]; simp only [optBindSome]
  rw [readInt_encInt]; simp only [optBindSome]
  simp only [readNat, optBindSome]
  rw [readStr_encStr]; simp only [optBindSome]
  rw [readBool_encBool]; simp only [optBindSome]
  rw [readStr_encStr]; simp only [optBindSome]
  rw [readBool_encBool]; simp only [optBindSome]
  rw [readBool_encBool_nil]; simp only [optBindSome]
  rfl

/-! ## Monotonicity of the big-endian key encoding -/

theorem byteLt_natToBE : ∀ (w u v : Nat), u < v → v < 256 ^ w →
    byteLt (natToBE w u) (natToBE w v) = true := by
  intro w
  induction w with
  | zero =>
    intro u v huv hv
    simp only [Nat.pow_zero] at hv
    omega
  | succ w ih =>
    intro u v huv hv
    have hX : 0 < 256 ^ w := Nat.pos_pow_of_pos w (by omega)
    have hvd : v / 256 ^ w < 256 :=
      Nat.div_lt_of_lt_mul (by rw [← Nat.pow_succ]; exact hv)
    have hud : u / 256 ^ w < 256 :=
      lt_of_le_of_lt (Nat.div_le_div_right huv.le) hvd
    simp only [natToBE, byteLt, Nat.mod_eq_of_lt hud, Nat.mod_eq_of_lt hvd]
    rcases Nat.lt_or_ge (u / 256 ^ w) (v / 256 ^ w) with h | h
    · simp [h]
    · have heq : u / 256 ^ w = v / 256 ^ w :=
        Nat.le_antisymm (Nat.div_le_div_right huv.le) h
      have h1 := Nat.div_add_mod u (256 ^ w)
      have h2 := Nat.div_add_mod v (256 ^ w)
      rw [heq] at h1
      have hmodlt : u % 256 ^ w < v % 256 ^ w := by omega
      have hmv : v % 256 ^ w < 256 ^ w := Nat.mod_lt _ hX
      simp [heq, ih _ _ hmodlt hmv]

/-! ## Listing aborts on any decode failure -/

theorem statesLoop_err_of_corrupt :
    ∀ l : List (Bytes × Bytes), (∃ p ∈ l, decodeState p.2 = none) →
      statesLoop l = Res.err Err.gobDecode := by
  intro l
  induction l with
  | nil => rintro ⟨p, hp, _⟩; cases hp
  | cons q rest ih =>
    rintro ⟨p, hp, hdec⟩
    obtain ⟨k, v⟩ := q
    rcases List.mem_cons.mp hp with h | h
    · subst h
      simp [statesLoop, hdec]
    · have hrest := ih ⟨p, h, hdec⟩
      cases hd : decodeState v <;> simp [statesLoop, hd, hrest]

/-! ## Lemmas about `ensureSub` (CreateBucketIfNotExists for a child bucket) -/

theorem ensureSub_ok_lookup (b b' : TopBucket) (k : Bytes)
    (h : ensureSub b k = Res.ok b') :
    ∃ s, lookupKey b'.entries k = some (UEntry.sub s) := by
  unfold ensureSub at h
  cases hl : lookupKey b.entries k with
  | none =>
    rw [hl] at h
    injection h with h
    subst h
    exact ⟨⟨[]⟩, lookupKey_putSorted_self _ _ _⟩
  | some e =>
    cases e with
    | val v => rw [hl] at h; cases h
    | sub s =>
      rw [hl] at h
      injection h with h
      subst h
      exact ⟨s, hl⟩

theorem ensureSub_ok_lookup_ne (b b' : TopBucket) (k k' : Bytes)
    (h : ensureSub b k = Res.ok b') (hne : k' ≠ k) :
    lookupKey b'.entries k' = lookupKey b.entries k' := by
  unfold ensureSub at h
  cases hl : lookupKey b.entries k with
  | none =>
    rw [hl] at h
    injection h with h
    subst h
    exact lookupKey_putSorted_ne _ _ _ _ hne
  | some e =>
    cases e with
    | val v => rw [hl] at h; cases h
    | sub s =>
      rw [hl] at h
      injection h with h
      subst h
      rfl

theorem ensureSub_of_present (b : TopBucket) (k : Bytes) (s : SubBucket)
    (h : lookupKey b.entries k = some (UEntry.sub s)) : ensureSub b k = Res.ok b := by
  simp [ensureSub, h]

/-! ## Sorted-key invariant: bolt keeps every bucket level in key order -/

/-- All entries of `l` have keys lexicographically above `k`. -/
def keyLtAll {α : Type} (k : Bytes) : List (Bytes × α) → Bool
  | [] => true
  | (k1, _) :: rest => byteLt k k1 && keyLtAll k rest

/-- One bucket level is strictly sorted by `byteLt` on its keys — the
invariant bolt maintains for every bucket, and which `putSorted` preserves
when building a database from empty. -/
def sortedKeysB {α : Type} : List (Bytes × α) → Bool
  | [] => true
  | (k, _) :: rest => keyLtAll k rest && sortedKeysB rest

theorem byteLt_asymm : ∀ a b : Bytes, byteLt a b = true → byteLt b a = false := by
  intro a
  induction a with
  | nil =>
    intro b hb
    cases b with
    | nil => simp [byteLt] at hb
    | cons y ys => simp [byteLt]
  | cons x xs ih =>
    intro b hb
    cases b with
    | nil => simp [byteLt] at hb
    | cons y ys =>
      simp only [byteLt] at hb ⊢
      by_cases hxy : x < y
      · have h1 : ¬ y < x := by omega
        have h2 : ¬ y = x := by omega
        simp [h1, h2]
      · by_cases heq : x = y
        · subst heq
          rw [if_neg (Nat.lt_irrefl x), if_pos rfl] at hb
          rw [if_neg (Nat.lt_irrefl x), if_pos rfl]
          exact ih ys hb
        · simp [hxy, heq] at hb

theorem keyLtAll_lookup {α : Type} (k0 : Bytes) :
    ∀ (l : List (Bytes × α)) (k : Bytes) (v : α),
      keyLtAll k0 l = true → lookupKey l k = some v → byteLt k0 k = true := by
  intro l
  induction l with
  | nil => intro k v _ hl; cases hl
  | cons p rest ih =>
    intro k v hall hl
    obtain ⟨k1, v1⟩ := p
    simp only [keyLtAll, Bool.and_eq_true] at hall
    by_cases hk : k = k1
    · subst hk
      exact hall.1
    · simp only [lookupKey, if_neg hk] at hl
      exact ih k v hall.2 hl

theorem putSorted_eq_of_lookup {α : Type} :
    ∀ (l : List (Bytes × α)) (k : Bytes) (v : α),
      sortedKeysB l = true → lookupKey l k = some v → putSorted l k v = l := by
  intro l
  induction l with
  | nil => intro k v _ hl; cases hl
  | cons p rest ih =>
    intro k v hsort hl
    obtain ⟨k0, v0⟩ := p
    simp only [sortedKeysB, Bool.and_eq_true] at hsort
    by_cases hk : k = k0
    · subst hk
      simp only [lookupKey, if_pos rfl] at hl
      injection hl with hl
      subst hl
      simp [putSorted, byteLt_irrefl]
    · simp only [lookupKey, if_neg hk] at hl
      have hgt : byteLt k0 k = true := keyLtAll_lookup k0 rest k v hsort.1 hl
      have hnlt : byteLt k k0 = false := byteLt_asymm k0 k hgt
      simp [putSorted, hnlt, hk, ih k v hsort.2 hl]

theorem bucketOf_eq_some (b : TopBucket) (k : Bytes) (s : SubBucket)
    (h : b.bucketOf k = some s) : lookupKey b.entries k = some (UEntry.sub s) := by
  unfold TopBucket.bucketOf at h
  cases hl : lookupKey b.entries k with
  | none => rw [hl] at h; cases h
  | some e =>
    cases e with
    | val v => rw [hl] at h; cases h
    | sub s' =>
      rw [hl] at h
      injection h with h
      subst h
      rfl

theorem strBytes_ne_nil (u : String) (h : u ≠ "") : ¬ strBytes u = [] := by
  intro hn
  apply h
  obtain ⟨data⟩ := u
  simp only [strBytes, List.map_eq_nil_iff] at hn
  subst hn
  rfl

/-! ## Concrete scenarios used by the claim theorems and witnesses -/

/-- The database right after a successful `Store.Open` on a fresh file: only
the `defaults` bucket exists, no user was ever provisioned. -/
def openedDB : DB := ⟨[(defaultsBucket, ⟨[]⟩)]⟩

/-- A host environment whose account home directory resolves. -/
def envHome : Env := ⟨some "/home/user"⟩

/-- The database after additionally provisioning user `u`. -/
def provisionedDB : DB := (Store.CreateBuckets "u" openedDB).getD ⟨[]⟩

/-- The bucket of user `u` inside `provisionedDB`. -/
def provisionedUserBkt : TopBucket :=
  (lookupKey provisionedDB.top (strBytes "u")).getD ⟨[]⟩

/-- The (empty) `download-items` bucket of user `u` inside `provisionedDB`. -/
def provisionedSub : SubBucket :=
  (provisionedUserBkt.bucketOf downloadItemsBucket).getD ⟨[]⟩

/-! ## Claim theorems -/

/-- C1 (counterexample): on the freshly opened database, `GetConfig` for the
never-provisioned user `u` does not return the computed default
configuration (nor any error value) even though the home directory
resolves — `tx.Bucket` yields nil and `userBkt.Get` dereferences it, a
runtime crash. -/
theorem getConfig_unprovisioned_cex :
    Store.GetConfig "u" openedDB envHome = Res.crash ∧
    Store.GetConfig "u" openedDB envHome ≠ Store.DefaultConfig envHome := by
  constructor <;> decide

/-- C1 (amended): `GetConfig("")` returns the computed default configuration
for every database and environment, and so does `GetConfig(u)` for a
provisioned `u` with no stored `config` value; but for a never-provisioned
`u` the call crashes on the nil user bucket instead of returning the
default. -/
theorem getConfig_fallback_spec :
    (∀ (db : DB) (env : Env), Store.GetConfig "" db env = Store.DefaultConfig env) ∧
    (∀ (u : String) (db : DB) (env : Env) (ub : TopBucket),
      u ≠ "" → lookupKey db.top (strBytes u) = some ub →
      ub.getVal configKey = none →
      Store.GetConfig u db env = Store.DefaultConfig env) ∧
    (∀ (u : String) (db : DB) (env : Env),
      u ≠ "" → lookupKey db.top (strBytes u) = none →
      Store.GetConfig u db env = Res.crash) := by
  refine ⟨fun db env => by simp [Store.GetConfig], ?_, ?_⟩
  · intro u db env ub hu hub hcfg
    simp [Store.GetConfig, hu, hub, hcfg]
  · intro u db env hu hub
    simp [Store.GetConfig, hu, hub]

/-- C1 (witness): the amended statement at concrete inputs — the empty user,
the provisioned user `u` with no saved config, and the never-provisioned
user `v`. -/
theorem getConfig_fallback_witness :
    (Store.GetConfig "" openedDB envHome = Store.DefaultConfig envHome) ∧
    (("u" : String) ≠ "" ∧
     lookupKey provisionedDB.top (strBytes "u") = some provisionedUserBkt ∧
     provisionedUserBkt.getVal configKey = none ∧
     Store.GetConfig "u" provisionedDB envHome = Store.DefaultConfig envHome) ∧
    (("v" : String) ≠ "" ∧
     lookupKey provisionedDB.top (strBytes "v") = none ∧
     Store.GetConfig "v" provisionedDB envHome = Res.crash) :=
  ⟨getConfig_fallback_spec.1 openedDB envHome,
   ⟨by decide, by decide, by decide,
    getConfig_fallback_spec.2.1 "u" provisionedDB envHome provisionedUserBkt
      (by decide) (by decide) (by decide)⟩,
   ⟨by decide, by decide,
    getConfig_fallback_spec.2.2 "v" provisionedDB envHome (by decide) (by decide)⟩⟩

/-- C2 (counterexample): the key encoding is not order-preserving over the
full signed 64-bit range: -1 < 0 but `itob(-1)` (all 0xFF bytes, the uint64
reinterpretation) is not lexicographically less than `itob(0)`. -/
theorem itob_not_monotone_on_negatives :
    (-1 : Int) < 0 ∧ byteLt (itob (-1)) (itob 0) = false := by
  constructor <;> decide

/-- Saving ids 5, 1, 3 (in that order) for the provisioned user `u`. -/
def orderingDemoRes : Res DB :=
  (((Store.CreateBuckets "u" openedDB).bind (Store.SaveState ⟨5, false, []⟩ "u")).bind
      (Store.SaveState ⟨1, false, []⟩ "u")).bind (Store.SaveState ⟨3, false, []⟩ "u")

/-- The database produced by `orderingDemoRes`. -/
def orderingDemoDB : DB := orderingDemoRes.getD ⟨[]⟩

/-- C2 (amended): `itob` is strictly order-preserving on the nonnegative
part of the signed 64-bit range (negative identifiers sort above all
nonnegative ones under the uint64 reinterpretation), and consequently
saving ids 5, 1, 3 for a user and listing yields ascending order
[1, 3, 5]. -/
theorem itob_monotone_nonneg_and_listing :
    (∀ a b : Int, 0 ≤ a → a < b → b < 2 ^ 63 → byteLt (itob a) (itob b) = true) ∧
    (orderingDemoRes = Res.ok orderingDemoDB ∧
     Store.ListStates "u" orderingDemoDB =
       Res.ok [⟨1, false, []⟩, ⟨3, false, []⟩, ⟨5, false, []⟩]) := by
  constructor
  · intro a b ha hab hb
    unfold itob
    have e63 : (2 : Int) ^ 63 = 9223372036854775808 := by norm_num
    have e64 : (2 : Int) ^ 64 = 18446744073709551616 := by norm_num
    have ha' : a % 2 ^ 64 = a := Int.emod_eq_of_lt ha (by omega)
    have hb' : b % 2 ^ 64 = b := Int.emod_eq_of_lt (by omega) (by omega)
    rw [ha', hb']
    apply byteLt_natToBE
    · omega
    · have e8 : (256 : Nat) ^ 8 = 18446744073709551616 := by norm_num
      omega
  · exact ⟨by decide, by decide⟩

/-- C2 (witness): the order-preservation instance at ids 1 and 2. -/
theorem itob_monotone_witness :
    ((0 : Int) ≤ 1 ∧ (1 : Int) < 2 ∧ (2 : Int) < 2 ^ 63) ∧
    byteLt (itob 1) (itob 2) = true :=
  ⟨⟨by decide, by decide, by decide⟩,
   itob_monotone_nonneg_and_listing.1 1 2 (by decide) (by decide) (by decide)⟩

/-- C3: when `bolt.Open` succeeds, provisioning of the `defaults` bucket
fails, and `Close` succeeds, `Store.Open` returns nil — success — with the
handle closed: `return s.db.Close()` discards the provisioning error
instead of surfacing it, so the caller is left with a closed, unusable
store and no reported failure. -/
theorem open_swallows_provisioning_error :
    Store.Open ⟨true, some Err.incompatibleValue, none⟩ =
      ⟨none, false⟩ := by decide

/-- C4 (counterexample): SaveState for the never-provisioned user `u` on
the freshly opened database does not return an error value: `tx.Bucket`
yields nil and `userBkt.Bucket(downloadItemsBucket)` dereferences it — a
runtime crash, not a surfaced failure. -/
theorem saveState_unprovisioned_cex :
    Store.SaveState ⟨7, false, []⟩ "u" openedDB = Res.crash := by decide

/-- C4 (amended): for every state and every user whose top-level bucket
does not exist, SaveState crashes with the nil-bucket dereference panic
rather than returning an error value; the store does not auto-provision on
write. -/
theorem saveState_unprovisioned_crashes :
    ∀ (s : State) (u : String) (db : DB),
      lookupKey db.top (strBytes u) = none →
      Store.SaveState s u db = Res.crash := by
  intro s u db h
  simp [Store.SaveState, h]

/-- C4 (witness): the amended statement at a concrete state and the
freshly opened database. -/
theorem saveState_unprovisioned_witness :
    lookupKey openedDB.top (strBytes "u") = none ∧
    Store.SaveState ⟨7, true, [3]⟩ "u" openedDB = Res.crash :=
  ⟨by decide, saveState_unprovisioned_crashes ⟨7, true, [3]⟩ "u" openedDB (by decide)⟩

/-- C5: round-trip — a successful SaveState followed by GetState of the
same file id returns a record deep-equal to the one saved, and a successful
SaveConfig followed by GetConfig for the same (nonempty) user returns the
saved configuration. -/
theorem save_then_get_roundtrip :
    (∀ (s : State) (u : String) (db db' : DB),
      Store.SaveState s u db = Res.ok db' →
      Store.GetState s.FileID u db' = Res.ok s) ∧
    (∀ (c : Config) (u : String) (db db' : DB) (env : Env),
      u ≠ "" →
      Store.SaveConfig c u db = Res.ok db' →
      Store.GetConfig u db' env = Res.ok c) := by
  constructor
  · intro s u db db' h
    unfold Store.SaveState at h
    cases hub : lookupKey db.top (strBytes u) with
    | none => simp only [hub] at h; cases h
    | some ub =>
      simp only [hub] at h
      cases hsub : ub.bucketOf downloadItemsBucket with
      | none => simp only [hsub] at h; cases h
      | some sub =>
        simp only [hsub] at h
        injection h with h
        subst h
        simp [Store.GetState, TopBucket.bucketOf, lookupKey_putSorted_self,
          decodeState_encodeState]
  · intro c u db db' env hu h
    unfold Store.SaveConfig at h
    cases hub : lookupKey db.top (strBytes u) with
    | none => simp only [hub] at h; cases h
    | some ub =>
      simp only [hub] at h
      cases hcv : lookupKey ub.entries configKey with
      | none =>
        simp only [hcv] at h
        injection h with h
        subst h
        simp [Store.GetConfig, hu, TopBucket.getVal, lookupKey_putSorted_self,
          decodeConfig_encodeConfig]
      | some e =>
        cases e with
        | sub s => simp only [hcv] at h; cases h
        | val v =>
          simp only [hcv] at h
          injection h with h
          subst h
          simp [Store.GetConfig, hu, TopBucket.getVal, lookupKey_putSorted_self,
            decodeConfig_encodeConfig]

/-- A record saved into the provisioned database. -/
def c5db : DB := (Store.SaveState ⟨9, false, [42]⟩ "u" provisionedDB).getD ⟨[]⟩

/-- A configuration value with every field away from its default. -/
def c5cfg : Config := ⟨60000000000, "/data", 123, 4, 5, "tok", true, "/watch", false, true⟩

/-- The provisioned database after saving `c5cfg` for user `u`. -/
def c5db2 : DB := (Store.SaveConfig c5cfg "u" provisionedDB).getD ⟨[]⟩

/-- C5 (witness): both round trips at concrete inputs. -/
theorem save_then_get_roundtrip_witness :
    (Store.SaveState ⟨9, false, [42]⟩ "u" provisionedDB = Res.ok c5db ∧
     Store.GetState 9 "u" c5db = Res.ok ⟨9, false, [42]⟩) ∧
    (("u" : String) ≠ "" ∧
     Store.SaveConfig c5cfg "u" provisionedDB = Res.ok c5db2 ∧
     Store.GetConfig "u" c5db2 envHome = Res.ok c5cfg) :=
  ⟨⟨by decide,
    save_then_get_roundtrip.1 ⟨9, false, [42]⟩ "u" provisionedDB c5db (by decide)⟩,
   ⟨by decide, by decide,
    save_then_get_roundtrip.2 c5cfg "u" provisionedDB c5db2 envHome
      (by decide) (by decide)⟩⟩

/-- Saving ids 1 (visible), 2 (hidden), 3 (visible) for user `u`. -/
def hiddenDemoRes : Res DB :=
  (((Store.CreateBuckets "u" openedDB).bind (Store.SaveState ⟨1, false, []⟩ "u")).bind
      (Store.SaveState ⟨2, true, []⟩ "u")).bind (Store.SaveState ⟨3, false, []⟩ "u")

/-- The database produced by `hiddenDemoRes`. -/
def hiddenDemoDB : DB := hiddenDemoRes.getD ⟨[]⟩

/-- C6: with states id 1 (visible), id 2 (hidden), id 3 (visible) saved for
user `u`, listing returns exactly ids 1 and 3 in ascending order, and the
hidden record is still in the store — GetState 2 returns it. -/
theorem listStates_hidden_filter :
    hiddenDemoRes = Res.ok hiddenDemoDB ∧
    Store.ListStates "u" hiddenDemoDB = Res.ok [⟨1, false, []⟩, ⟨3, false, []⟩] ∧
    Store.GetState 2 "u" hiddenDemoDB = Res.ok ⟨2, true, []⟩ :=
  ⟨by decide, by decide, by decide⟩

/-- A configuration saved before re-provisioning. -/
def c7cfg : Config := ⟨30000000000, "/srv/dl", 77, 6, 1, "sec", false, "", true, false⟩

/-- Provision user `u`, then save a download state and a configuration. -/
def savedDemoRes : Res DB :=
  ((Store.CreateBuckets "u" openedDB).bind (Store.SaveState ⟨4, false, [7]⟩ "u")).bind
    (Store.SaveConfig c7cfg "u")

/-- The database produced by `savedDemoRes`: it holds real records for `u`. -/
def savedDemoDB : DB := savedDemoRes.getD ⟨[]⟩

/-- The bucket of user `u` inside `savedDemoDB`. -/
def savedUserBkt : TopBucket := (lookupKey savedDemoDB.top (strBytes "u")).getD ⟨[]⟩

/-- The `download-items` bucket of user `u` inside `savedDemoDB`. -/
def savedDI : SubBucket := (savedUserBkt.bucketOf downloadItemsBucket).getD ⟨[]⟩

/-- The `watched-torrents` bucket of user `u` inside `savedDemoDB`. -/
def savedWT : SubBucket := (savedUserBkt.bucketOf watchedTorrentsBucket).getD ⟨[]⟩

/-- C7: CreateBuckets is idempotent and loses no data on re-provisioning.
For every well-formed database (bucket levels in bolt's sorted key order)
in which the user's bucket and both child buckets already exist — whatever
records they and the rest of the database hold — a repeated CreateBuckets
returns that database exactly, so the namespace set and every saved record
are preserved byte for byte.  In particular, provisioning `u`, saving a
download state and a configuration, and provisioning `u` again yields the
identical database, with both records still readable. -/
theorem createBuckets_idempotent :
    (∀ (u : String) (db : DB) (ub : TopBucket) (s1 s2 : SubBucket),
      u ≠ "" →
      sortedKeysB db.top = true →
      lookupKey db.top (strBytes u) = some ub →
      ub.bucketOf downloadItemsBucket = some s1 →
      ub.bucketOf watchedTorrentsBucket = some s2 →
      Store.CreateBuckets u db = Res.ok db) ∧
    (savedDemoRes = Res.ok savedDemoDB ∧
     Store.CreateBuckets "u" savedDemoDB = Res.ok savedDemoDB ∧
     Store.GetState 4 "u" savedDemoDB = Res.ok ⟨4, false, [7]⟩ ∧
     Store.GetConfig "u" savedDemoDB envHome = Res.ok c7cfg) := by
  constructor
  · intro u db ub s1 s2 hu hsort hub h1 h2
    have hd1 := bucketOf_eq_some _ _ _ h1
    have hd2 := bucketOf_eq_some _ _ _ h2
    unfold Store.CreateBuckets
    rw [if_neg (strBytes_ne_nil u hu)]
    simp only [hub, Option.getD_some, ensureSub_of_present _ _ _ hd1,
      ensureSub_of_present _ _ _ hd2]
    rw [putSorted_eq_of_lookup db.top (strBytes u) ub hsort hub]
  · exact ⟨by decide, by decide, by decide, by decide⟩

/-- C7 (witness): the general statement applied to `savedDemoDB`, the
database holding a saved state and config for `u` — re-provisioning
returns it unchanged. -/
theorem createBuckets_idempotent_witness :
    (("u" : String) ≠ "" ∧
     sortedKeysB savedDemoDB.top = true ∧
     lookupKey savedDemoDB.top (strBytes "u") = some savedUserBkt ∧
     savedUserBkt.bucketOf downloadItemsBucket = some savedDI ∧
     savedUserBkt.bucketOf watchedTorrentsBucket = some savedWT) ∧
    Store.CreateBuckets "u" savedDemoDB = Res.ok savedDemoDB :=
  ⟨⟨by decide, by decide, by decide, by decide, by decide⟩,
   createBuckets_idempotent.1 "u" savedDemoDB savedUserBkt savedDI savedWT
     (by decide) (by decide) (by decide) (by decide) (by decide)⟩

/-- C8: listing states with the empty user identifier returns an empty
sequence and never an error, whatever the database contents — the check
short-circuits before any bucket is touched. -/
theorem listStates_empty_user (db : DB) : Store.ListStates "" db = Res.ok [] := by
  simp [Store.ListStates]

/-- C9: for a provisioned user, GetState fails with `ErrStateNotFound`
exactly on ids with no record stored under the big-endian key encoding,
and returns the stored (decodable) record when one exists. -/
theorem getState_notFound_spec :
    ∀ (id : Int) (u : String) (db : DB) (ub : TopBucket) (sub : SubBucket),
      lookupKey db.top (strBytes u) = some ub →
      ub.bucketOf downloadItemsBucket = some sub →
      ((lookupKey sub.kvs (itob id) = none →
          Store.GetState id u db = Res.err Err.stateNotFound) ∧
       (∀ (v : Bytes) (st : State), lookupKey sub.kvs (itob id) = some v →
          decodeState v = some st → Store.GetState id u db = Res.ok st)) := by
  intro id u db ub sub hub hsub
  constructor
  · intro hnone
    simp [Store.GetState, hub, hsub, hnone]
  · intro v st hv hdec
    simp [Store.GetState, hub, hsub, hv, hdec]

/-- C9 (witness): in the provisioned database, the unsaved id 99 yields
`ErrStateNotFound`, and in `c5db` the saved id 9 is returned. -/
theorem getState_notFound_witness :
    (lookupKey provisionedDB.top (strBytes "u") = some provisionedUserBkt ∧
     provisionedUserBkt.bucketOf downloadItemsBucket = some provisionedSub ∧
     lookupKey provisionedSub.kvs (itob 99) = none ∧
     Store.GetState 99 "u" provisionedDB = Res.err Err.stateNotFound) :=
  ⟨by decide, by decide, by decide,
   (getState_notFound_spec 99 "u" provisionedDB provisionedUserBkt provisionedSub
      (by decide) (by decide)).1 (by decide)⟩

/-- C10: `States` gob-decodes every record before applying the hidden
filter, so a record that fails to decode aborts the whole listing with an
error — even a record whose bytes carry the hidden flag. -/
theorem listStates_aborts_on_corrupt :
    ∀ (u : String) (db : DB) (ub : TopBucket) (sub : SubBucket),
      u ≠ "" →
      lookupKey db.top (strBytes u) = some ub →
      ub.bucketOf downloadItemsBucket = some sub →
      (∃ p ∈ sub.kvs, decodeState p.2 = none) →
      Store.ListStates u db = Res.err Err.gobDecode := by
  intro u db ub sub hu hub hsub hex
  simp [Store.ListStates, hu, hub, hsub, statesLoop_err_of_corrupt _ hex]

/-- A provisioned database for user `u` whose `download-items` bucket holds
a valid visible record (id 1), a corrupt record under key `itob 2` whose
hidden-flag byte is set but whose sign byte is invalid, and another valid
visible record (id 3). -/
def corruptDB : DB :=
  ⟨[(strBytes "u",
     ⟨[(downloadItemsBucket,
        UEntry.sub ⟨[(itob 1, encodeState ⟨1, false, []⟩),
                     (itob 2, [9, 9, 1]),
                     (itob 3, encodeState ⟨3, false, []⟩)]⟩),
       (watchedTorrentsBucket, UEntry.sub ⟨[]⟩)]⟩)]⟩

/-- The bucket of user `u` inside `corruptDB`. -/
def corruptUserBkt : TopBucket := (lookupKey corruptDB.top (strBytes "u")).getD ⟨[]⟩

/-- The `download-items` bucket of user `u` inside `corruptDB`. -/
def corruptSub : SubBucket := (corruptUserBkt.bucketOf downloadItemsBucket).getD ⟨[]⟩

/-- C10 (witness): listing `corruptDB` aborts with the decode error even
though the corrupt record sits between two valid visible records and its
hidden byte is set. -/
theorem listStates_aborts_on_corrupt_witness :
    (("u" : String) ≠ "" ∧
     lookupKey corruptDB.top (strBytes "u") = some corruptUserBkt ∧
     corruptUserBkt.bucketOf downloadItemsBucket = some corruptSub ∧
     decodeState [9, 9, 1] = none ∧
     Store.ListStates "u" corruptDB = Res.err Err.gobDecode) :=
  ⟨by decide, by decide, by decide, by decide,
   listStates_aborts_on_corrupt "u" corruptDB corruptUserBkt corruptSub
     (by decide) (by decide) (by decide)
     ⟨(itob 2, [9, 9, 1]), by decide, by decide⟩⟩
